import Mathlib

/-!
Verification of the rag-system-server frontend slice and of the
retrieval-evaluation core it exercises.

The TypeScript source is embedded shallowly: React event handlers become
pure functions from the component state they read to the action they
produce, the axios service functions become pure functions from the
backend response (or response stream) to the value they return or the
error they throw (`Except`), and JS numbers are modelled as rationals.
Backend algorithms that the spec describes but that are not part of the
frontend slice (RRF fusion, recall@k) are modelled from the spec and
marked as such.
-/

namespace RagSpec

/-! ## Data model (frontend/src/types/evaluation.ts, chat.ts) -/

/-- `RetrievalMetrics` from types/evaluation.ts. -/
structure RetrievalMetrics where
  recall_at_5 : ℚ
  recall_at_10 : ℚ
  ndcg_at_10 : ℚ
  mrr : ℚ
  hit_at_5 : Bool
  hit_at_10 : Bool
deriving DecidableEq

/-- `GenerationMetrics` from types/evaluation.ts; each field nullable. -/
structure GenerationMetrics where
  faithfulness : Option ℚ
  answer_relevancy : Option ℚ
  context_precision : Option ℚ
  context_recall : Option ℚ
deriving DecidableEq

/-- `LatencyBreakdown` from types/evaluation.ts. -/
structure LatencyBreakdown where
  total_ms : ℚ
  query_rewrite_ms : ℚ
  retrieval_ms : ℚ
  rerank_ms : ℚ
  generation_ms : ℚ
deriving DecidableEq

/-- `RetrievedDocument` from types/evaluation.ts. -/
structure RetrievedDocument where
  doc_id : String
  content : String
  score : ℚ
  rank : Nat
deriving DecidableEq

/-- `EvaluationResult` from types/evaluation.ts. -/
structure EvaluationResult where
  question : String
  answer : String
  ground_truth : Option String
  retrieved_docs : List RetrievedDocument
  retrieval_metrics : Option RetrievalMetrics
  generation_metrics : Option GenerationMetrics
  latency : LatencyBreakdown
  profile_id : String
  routing_decision : String
deriving DecidableEq

/-- `SingleEvalRequest` from types/evaluation.ts. -/
structure SingleEvalRequest where
  question : String
  ground_truth : Option String
  relevant_doc_ids : Option (List String)
  profile_id : String
  include_generation_metrics : Bool
deriving DecidableEq

/-! ## JS string trimming

JS `String.prototype.trim` removes leading and trailing whitespace.
Modelled structurally over the string's character list so that the kernel
can evaluate it (Lean's own `String.trim` is defined by well-founded
recursion over byte positions and does not reduce). -/

/-- Characters removed by JS `trim`, modelled by `Char.isWhitespace`. -/
def jsTrimChars (l : List Char) : List Char :=
  ((l.dropWhile Char.isWhitespace).reverse.dropWhile Char.isWhitespace).reverse

/-- Model of JS `s.trim()`. -/
def jsTrim (s : String) : String :=
  String.mk (jsTrimChars s.data)

/-! ## ChatInterface.tsx -/

/-- `handleSend` (ChatInterface.tsx lines 31-36): calls `onSend` with the
trimmed input only when the trimmed input is non-empty, not loading, and
connected; otherwise it does nothing.  The returned value is the message
passed to `onSend`, `none` when nothing is sent. -/
def handleSend (input : String) (isLoading isConnected : Bool) : Option String :=
  if jsTrim input ≠ "" ∧ isLoading = false ∧ isConnected = true then
    some (jsTrim input)
  else
    none

/-! ## EvaluationPage.tsx -/

/-- The component state read by `handleEvaluate` (EvaluationPage.tsx
lines 37-45). -/
structure EvalPageState where
  question : String
  groundTruth : String
  selectedProfileId : String
  includeRagas : Bool
  ragasAvailable : Bool
deriving DecidableEq

/-- Outcome of one invocation of `handleEvaluate`: either it sets an error
message and returns without issuing a request, or it issues a
`SingleEvalRequest` to `evaluateSingle`. -/
inductive HandleEvaluateStep where
  | setErrorAndReturn (msg : String)
  | issueRequest (req : SingleEvalRequest)
deriving DecidableEq

/-- `handleEvaluate` (EvaluationPage.tsx lines 67-91), up to the point the
request is issued: an empty trimmed question sets the error and returns;
otherwise the request is built with the trimmed question, the trimmed
ground truth (or absent when it trims to empty, `groundTruth.trim() ||
undefined`), the selected profile, and
`include_generation_metrics = includeRagas && ragasAvailable`. -/
def handleEvaluate (st : EvalPageState) : HandleEvaluateStep :=
  if jsTrim st.question = "" then
    .setErrorAndReturn "Please enter a question"
  else
    .issueRequest
      { question := jsTrim st.question
        ground_truth := if jsTrim st.groundTruth = "" then none else some (jsTrim st.groundTruth)
        relevant_doc_ids := none
        profile_id := st.selectedProfileId
        include_generation_metrics := st.includeRagas && st.ragasAvailable }

/-- The state update `setResults((prev) => [result, ...prev])`
(EvaluationPage.tsx line 84). -/
def setResultsUpdate (result : EvaluationResult) (prev : List EvaluationResult) :
    List EvaluationResult :=
  result :: prev

/-- `const latestResult = results[0]` (EvaluationPage.tsx line 117). -/
def latestResult (results : List EvaluationResult) : Option EvaluationResult :=
  results.head?

/-! ## LatencyChart.tsx -/

/-- The four stage segments drawn by `LatencyChart` (LatencyChart.tsx
lines 15-36). -/
def latencySegments (latency : LatencyBreakdown) : List (String × ℚ) :=
  [("Query Rewrite", latency.query_rewrite_ms),
   ("Retrieval", latency.retrieval_ms),
   ("Reranking", latency.rerank_ms),
   ("Generation", latency.generation_ms)]

/-- The per-segment percentage width `(seg.value / total) * 100`
(LatencyChart.tsx line 49). -/
def segmentWidth (value total : ℚ) : ℚ :=
  value / total * 100

/-- Modelled from the spec: the Evaluation Engine that produces
`LatencyBreakdown` values is not part of this slice; spec §3 states the
invariant that stage timers are nonnegative wall-clock durations and
`total_ms` is wall-clock across the whole call, so `total_ms ≥ max
component`. -/
def LatencyBreakdown.wf (lb : LatencyBreakdown) : Prop :=
  0 ≤ lb.query_rewrite_ms ∧ 0 ≤ lb.retrieval_ms ∧ 0 ≤ lb.rerank_ms ∧ 0 ≤ lb.generation_ms ∧
    lb.query_rewrite_ms ≤ lb.total_ms ∧ lb.retrieval_ms ≤ lb.total_ms ∧
    lb.rerank_ms ≤ lb.total_ms ∧ lb.generation_ms ≤ lb.total_ms

/-! ## services/api.ts -/

/-- One element of the backend query response's `sources` array. -/
structure BackendQuerySource where
  content : String
  source : Option String
  score : Option ℚ
deriving DecidableEq

/-- `BackendQueryResponse` from api.ts. -/
structure BackendQueryResponse where
  answer : String
  sources : Option (List BackendQuerySource)
  processing_time_ms : ℚ

/-- `QueryResponse` from types/chat.ts. -/
structure QueryResponse where
  answer : String
  sources : Option (List String)
deriving DecidableEq

/-- The request body `{ question }` posted by `sendQuery`. -/
structure QueryRequestBody where
  question : String
deriving DecidableEq

/-- The endpoint and body posted by `sendQuery` (api.ts lines 18-20). -/
def sendQueryRequest (question : String) : String × QueryRequestBody :=
  ("/api/v1/query", ⟨question⟩)

/-- The response mapping of `sendQuery` (api.ts lines 21-24): the answer
is passed through unchanged and `sources` maps each backend source to its
`content` field (`response.data.sources?.map(s => s.content)`). -/
def sendQuery (response : BackendQueryResponse) : QueryResponse :=
  { answer := response.answer
    sources := response.sources.map (fun l => l.map BackendQuerySource.content) }

/-- The payload of the `GET /health` response, of which `checkHealth`
reads only the `status` field; `none` models an absent field in an
arbitrary payload. -/
structure HealthPayload where
  status : Option String

/-- `checkHealth` (api.ts lines 86-93): any request error is caught and
yields `false`; a successful response yields `response.data.status ===
'ok'`.  The outcome of the GET request is the argument; `ε` ranges over
arbitrary error values. -/
def checkHealth {ε : Type} (outcome : Except ε HealthPayload) : Bool :=
  match outcome with
  | .error _ => false
  | .ok payload => payload.status == some "ok"

/-- `BackendUploadResponse` from api.ts (the `POST /api/v1/upload`
response). -/
structure BackendUploadResponse where
  task_id : String
  file_name : String
  status : String
  message : String

/-- `BackendUploadStatusResponse` from api.ts (the polled
`GET /api/v1/upload/{task_id}` response). -/
structure BackendUploadStatusResponse where
  task_id : String
  status : String
  file_name : String
  chunks_created : Option Nat
  error : Option String
  completed_at : Option String

/-- The loop condition of `pollUploadStatus` (api.ts line 46):
`status === 'completed' || status === 'failed'`. -/
def terminalStatus (r : BackendUploadStatusResponse) : Bool :=
  r.status == "completed" || r.status == "failed"

/-- The polling loop of `pollUploadStatus` (api.ts lines 43-52), with the
backend's answer to the i-th status request given by `resp i`: starting
at attempt `i` with `fuel` attempts left, return the first response whose
status is `completed` or `failed`, and throw `'Upload timeout'` once the
attempts are exhausted. -/
def pollFrom (resp : Nat → BackendUploadStatusResponse) :
    Nat → Nat → Except String BackendUploadStatusResponse
  | 0, _ => .error "Upload timeout"
  | fuel + 1, i =>
    if terminalStatus (resp i) then .ok (resp i)
    else pollFrom resp fuel (i + 1)

/-- `pollUploadStatus` (api.ts lines 43-52): polls from attempt 0 with
`maxAttempts` attempts. -/
def pollUploadStatus (resp : Nat → BackendUploadStatusResponse) (maxAttempts : Nat) :
    Except String BackendUploadStatusResponse :=
  pollFrom resp maxAttempts 0

/-- The `data` field of the `UploadResponse` from types/chat.ts. -/
structure UploadResponseData where
  file_name : String
  chunks_created : Nat
  doc_id : String

/-- `UploadResponse` from types/chat.ts. -/
structure UploadResponse where
  success : Bool
  message : String
  data : UploadResponseData

/-- JS `s || fallback` on an optional string: both an absent field and
the empty string are falsy and select the fallback. -/
def jsOrString (s : Option String) (fallback : String) : String :=
  match s with
  | none => fallback
  | some v => if v = "" then fallback else v

/-- `uploadDocument` (api.ts lines 54-84) after the initial
`POST /api/v1/upload` succeeded with `upload`: poll the status endpoint
(60 attempts); a thrown poll error propagates; a `failed` terminal status
throws `statusResponse.error || 'Upload failed'` (JS `||`, so an absent
or empty error message falls back to `'Upload failed'`); otherwise the
success result is built from the terminal status response. -/
def uploadDocument (upload : BackendUploadResponse)
    (resp : Nat → BackendUploadStatusResponse) : Except String UploadResponse :=
  match pollUploadStatus resp 60 with
  | .error e => .error e
  | .ok statusResponse =>
    if statusResponse.status = "failed" then
      .error (jsOrString statusResponse.error "Upload failed")
    else
      .ok { success := true
            message := "Upload completed"
            data := { file_name := statusResponse.file_name
                      chunks_created := statusResponse.chunks_created.getD 0
                      doc_id := statusResponse.task_id } }

/-! ## MetricsCard.tsx

`formatValue` renders a nullable metric value as a string; its numeric
branches use JS `Number.prototype.toFixed`, modelled here as rounding to
the requested number of decimals and rendering the result as a decimal
digit string. -/

/-- The `format` prop of `MetricsCard` (`'percent' | 'number' | 'ms'`). -/
inductive MetricFormat where
  | percent
  | number
  | ms
deriving DecidableEq

/-- The status colors produced by `getStatusColor`: green
(`text-green-600`, success), amber (`text-amber-600`), gray
(`text-gray-600`, no judgement). -/
inductive StatusColor where
  | green
  | amber
  | gray
deriving DecidableEq

/-- One decimal digit as a character. -/
def digitChar (d : Nat) : Char :=
  if d = 0 then '0' else if d = 1 then '1' else if d = 2 then '2'
  else if d = 3 then '3' else if d = 4 then '4' else if d = 5 then '5'
  else if d = 6 then '6' else if d = 7 then '7' else if d = 8 then '8'
  else '9'

/-- Base-10 digit characters of a positive natural number, most
significant first; `fuel` bounds the recursion. -/
def natCharsAux : Nat → Nat → List Char
  | 0, _ => []
  | fuel + 1, n =>
    if n = 0 then [] else natCharsAux fuel (n / 10) ++ [digitChar (n % 10)]

/-- Decimal digit characters of a natural number. -/
def natChars (n : Nat) : List Char :=
  if n = 0 then ['0'] else natCharsAux n n

/-- Left-pad a digit list with `'0'` to the requested width. -/
def padZeros (width : Nat) (l : List Char) : List Char :=
  List.replicate (width - l.length) '0' ++ l

/-- Unsigned decimal rendering of `m / 10^digits` with exactly `digits`
fractional digits. -/
def fixedCore (m : Nat) (digits : Nat) : List Char :=
  if digits = 0 then natChars m
  else natChars (m / 10 ^ digits) ++ '.' :: padZeros digits (natChars (m % 10 ^ digits))

/-- Model of JS `v.toFixed(digits)`: round `v` to `digits` decimals and
render the result as a signed decimal digit string. -/
def toFixedChars (v : ℚ) (digits : Nat) : List Char :=
  if round (v * (10 : ℚ) ^ digits) < 0 then
    '-' :: fixedCore (round (v * (10 : ℚ) ^ digits)).natAbs digits
  else
    fixedCore (round (v * (10 : ℚ) ^ digits)).natAbs digits

/-- `formatValue` (MetricsCard.tsx lines 27-40): `'N/A'` for a null
value, otherwise `(val*100).toFixed(1) + '%'` for percent,
`val.toFixed(0) + 'ms'` for ms, `val.toFixed(2)` for number. -/
def formatValue (val : Option ℚ) (format : MetricFormat) : String :=
  match val with
  | none => "N/A"
  | some v =>
    match format with
    | .percent => String.mk (toFixedChars (v * 100) 1 ++ ['%'])
    | .ms => String.mk (toFixedChars v 0 ++ ['m', 's'])
    | .number => String.mk (toFixedChars v 2)

/-- `getStatusColor` (MetricsCard.tsx lines 42-50): gray when the value
is null or no target is given; for the ms format lower is better (green
iff `value <= target`); otherwise higher is better (green iff
`value >= target`). -/
def getStatusColor (value : Option ℚ) (target : Option ℚ) (format : MetricFormat) :
    StatusColor :=
  match value, target with
  | none, _ => .gray
  | some _, none => .gray
  | some v, some t =>
    match format with
    | .ms => if v ≤ t then .green else .amber
    | _ => if t ≤ v then .green else .amber

/-! ## Spec-modelled retrieval-evaluation core (spec §4.3, §4.6)

The Hybrid Retriever's RRF fusion and the Evaluation Engine's metrics are
called through the REST boundary and are not part of this slice; they are
modelled from the spec's words. -/

/-- Modelled from the spec: the 1-based stage-local rank of a doc_id
within one ranked list (spec §3, §4.3 — ranked lists carry 1-based
ranks in list order). -/
def rankIn (l : List String) (d : String) : Nat :=
  l.indexOf d + 1

/-- Modelled from the spec: the contribution of one ranked list to a
doc_id's fused score — `1 / (rrf_constant + rank_in_that_list)` when the
list contains the doc_id, else 0 (spec §4.3 step 2: documents absent
from a list contribute 0 for that list). -/
def rrfContribution (rrf_constant : ℚ) (l : List String) (d : String) : ℚ :=
  if d ∈ l then 1 / (rrf_constant + (rankIn l d : ℚ)) else 0

/-- Modelled from the spec: `fused_score = Σ over lists containing the
doc_id of 1 / (rrf_constant + rank_in_that_list)` (spec §4.3 step 2). -/
def fusedScore (rrf_constant : ℚ) (lists : List (List String)) (d : String) : ℚ :=
  (lists.map (fun l => rrfContribution rrf_constant l d)).sum

/-- Modelled from the spec: the lowest rank of a doc_id across the lists
that contain it, used as the first tie-break (spec §4.3 step 3). -/
def minRankAcross (lists : List (List String)) (d : String) : Nat :=
  (((lists.filter (fun l => d ∈ l)).map (fun l => rankIn l d)).min?).getD 0

/-- Modelled from the spec: the ordering of spec §4.3 step 3 — fused
score descending, ties by lowest minimum rank across contributing lists,
then by doc_id for determinism. -/
def rrfBefore (rrf_constant : ℚ) (lists : List (List String))
    (a b : String) : Bool :=
  if fusedScore rrf_constant lists a ≠ fusedScore rrf_constant lists b then
    fusedScore rrf_constant lists b ≤ fusedScore rrf_constant lists a
  else if minRankAcross lists a ≠ minRankAcross lists b then
    minRankAcross lists a ≤ minRankAcross lists b
  else
    a ≤ b

/-- Modelled from the spec: RRF fusion (spec §4.3 steps 2-4) — all unique
doc_ids appearing in any input list, sorted by the spec ordering, cut to
top-k, each paired with its fused score. -/
def rrfFuse (rrf_constant : ℚ) (k : Nat) (lists : List (List String)) :
    List (String × ℚ) :=
  (((lists.flatten).dedup.mergeSort (rrfBefore rrf_constant lists)).take k).map
    (fun d => (d, fusedScore rrf_constant lists d))

/-- Modelled from the spec: `recall_at_k = |retrieved_top_k ∩ relevant| /
|relevant|` (spec §4.6), with the retrieved ranked list cut to its first
k entries and compared as a set against the relevant-doc-id set. -/
def recallAtK (retrieved : List String) (relevant : Finset String) (k : Nat) : ℚ :=
  (((retrieved.take k).toFinset ∩ relevant).card : ℚ) / (relevant.card : ℚ)

/-! ## Concrete sample values used by witnesses and counterexamples -/

/-- A concrete upload response. -/
def sampleUpload : BackendUploadResponse :=
  { task_id := "t1", file_name := "doc.pdf", status := "processing", message := "queued" }

/-- A status stream that reports failure with message `"boom"` on every
attempt. -/
def failingStream : Nat → BackendUploadStatusResponse := fun _ =>
  { task_id := "t1", status := "failed", file_name := "doc.pdf"
    chunks_created := none, error := some "boom", completed_at := none }

/-- A concrete backend query response with one source. -/
def sampleBackendQueryResponse : BackendQueryResponse :=
  { answer := "ans", sources := some [⟨"x", none, none⟩], processing_time_ms := 0 }

/-- An all-zero latency record. -/
def sampleLatency : LatencyBreakdown :=
  { total_ms := 0, query_rewrite_ms := 0, retrieval_ms := 0, rerank_ms := 0, generation_ms := 0 }

/-- A concrete evaluation result. -/
def sampleResultA : EvaluationResult :=
  { question := "q0", answer := "a0", ground_truth := none, retrieved_docs := []
    retrieval_metrics := none, generation_metrics := none, latency := sampleLatency
    profile_id := "fast", routing_decision := "llm" }

/-- A second concrete evaluation result, differing from `sampleResultA`
in its question. -/
def sampleResultB : EvaluationResult :=
  { sampleResultA with question := "q1" }

/-- A concrete page state whose question is whitespace-only. -/
def blankState : EvalPageState :=
  { question := "  ", groundTruth := "", selectedProfileId := "hybrid_rerank"
    includeRagas := true, ragasAvailable := true }

/-- A concrete page state with the RAGAS scorer reported unavailable and
the checkbox checked. -/
def noRagasState : EvalPageState :=
  { question := "hi", groundTruth := "", selectedProfileId := "hybrid_rerank"
    includeRagas := true, ragasAvailable := false }

/-! ## Theorems -/

/-- C1: for every question whose trimmed form is empty, `handleEvaluate`
sets the error message and returns without issuing any evaluation
request, and `handleSend` sends nothing, for every loading/connection
state; so no empty or whitespace-only question is ever sent toward the
router. -/
theorem c1_blank_question_rejected (st : EvalPageState) (input : String)
    (isLoading isConnected : Bool)
    (hq : jsTrim st.question = "") (hi : jsTrim input = "") :
    handleEvaluate st = .setErrorAndReturn "Please enter a question" ∧
      handleSend input isLoading isConnected = none := by
  constructor
  · simp [handleEvaluate, hq]
  · simp [handleSend, hi]

/-- Witness for C1 at the whitespace-only question `"  "` and the
whitespace-only chat input `" "`. -/
theorem c1_blank_question_rejected_witness :
    handleEvaluate blankState = .setErrorAndReturn "Please enter a question" ∧
      handleSend " " false true = none :=
  c1_blank_question_rejected blankState " " false true (by decide) (by decide)

/-- C2 counterexample: the claim states the new result is appended at the
end of the history; at the concrete prior list `[sampleResultA]` and new
result `sampleResultB` the updated list is `[sampleResultB,
sampleResultA]`, not `[sampleResultA] ++ [sampleResultB]`. -/
theorem c2_update_not_append :
    ¬ setResultsUpdate sampleResultB [sampleResultA] = [sampleResultA] ++ [sampleResultB] := by
  intro h
  have h1 : sampleResultB = sampleResultA := by
    have := congrArg List.head? h
    simpa [setResultsUpdate] using this
  have h2 : sampleResultB.question = sampleResultA.question := congrArg EvaluationResult.question h1
  exact absurd h2 (by decide)

/-- C2 (amended): each result of a successful evaluation call is
prepended to the caller-held history: the updated list is the new result
followed by all prior results unchanged, and `latestResult` (index 0) is
the new result. -/
theorem c2_update_prepends (result : EvaluationResult) (prev : List EvaluationResult) :
    setResultsUpdate result prev = result :: prev ∧
      (setResultsUpdate result prev).tail = prev ∧
      latestResult (setResultsUpdate result prev) = some result :=
  ⟨rfl, rfl, rfl⟩

/-- C9: whenever the health check reported the scorer unavailable
(`ragasAvailable = false`), every request issued by `handleEvaluate` has
`include_generation_metrics = false`, regardless of the checkbox value. -/
theorem c9_no_generation_metrics_when_unavailable (st : EvalPageState)
    (h : st.ragasAvailable = false) (req : SingleEvalRequest)
    (hreq : handleEvaluate st = .issueRequest req) :
    req.include_generation_metrics = false := by
  unfold handleEvaluate at hreq
  by_cases hq : jsTrim st.question = ""
  · simp [hq] at hreq
  · simp only [hq, if_neg, if_false] at hreq
    have hr := (HandleEvaluateStep.issueRequest.injEq _ _).mp hreq.symm
    rw [hr]
    simp [h]

/-- Witness for C9 at a concrete state with the scorer unavailable and
the checkbox checked. -/
theorem c9_no_generation_metrics_when_unavailable_witness :
    ({ question := "hi", ground_truth := none, relevant_doc_ids := none
       profile_id := "hybrid_rerank"
       include_generation_metrics := true && false } : SingleEvalRequest).include_generation_metrics
      = false :=
  c9_no_generation_metrics_when_unavailable noRagasState rfl _ (by decide)

/-- A ratio scaled to percent stays at or below 100 when the numerator is
between 0 and the denominator. -/
theorem ratio_scaled_le_100 (v T : ℚ) (h0 : 0 ≤ v) (h1 : v ≤ T) :
    v / T * 100 ≤ 100 := by
  rcases lt_or_eq_of_le (h0.trans h1) with hT | hT
  · have hdiv : v / T ≤ 1 := (div_le_one hT).mpr h1
    have hmul : v / T * 100 ≤ 1 * 100 := mul_le_mul_of_nonneg_right hdiv (by norm_num)
    simpa using hmul
  · rw [← hT]
    simp

/-- C3: for every `LatencyBreakdown` satisfying the spec invariant
(`total_ms` at least each nonnegative stage component), every per-segment
percentage width computed by `LatencyChart` as `value / total * 100` is
at most 100. -/
theorem c3_segment_width_le_100 (lb : LatencyBreakdown) (h : lb.wf) :
    ∀ seg ∈ latencySegments lb, segmentWidth seg.2 lb.total_ms ≤ 100 := by
  obtain ⟨h1, h2, h3, h4, h5, h6, h7, h8⟩ := h
  intro seg hseg
  simp only [latencySegments, List.mem_cons, List.mem_singleton, List.not_mem_nil, or_false]
    at hseg
  rcases hseg with hs | hs | hs | hs <;> subst hs <;>
    exact ratio_scaled_le_100 _ _ (by assumption) (by assumption)

/-- Witness for C3 at the all-zero latency record. -/
theorem c3_segment_width_le_100_witness :
    segmentWidth sampleLatency.query_rewrite_ms sampleLatency.total_ms ≤ 100 :=
  c3_segment_width_le_100 sampleLatency
    (by simp [LatencyBreakdown.wf, sampleLatency])
    ("Query Rewrite", sampleLatency.query_rewrite_ms)
    (by simp [latencySegments])

/-- When no terminal status arrives within the remaining attempts, the
polling loop throws the upload-timeout error. -/
theorem pollFrom_timeout (resp : Nat → BackendUploadStatusResponse) :
    ∀ fuel i, (∀ m, m < fuel → terminalStatus (resp (i + m)) = false) →
      pollFrom resp fuel i = .error "Upload timeout" := by
  intro fuel
  induction fuel with
  | zero => intro i _; rfl
  | succ n ih =>
    intro i h
    have h0 : terminalStatus (resp i) = false := by simpa using h 0 (Nat.succ_pos n)
    rw [pollFrom, h0]
    simp only [Bool.false_eq_true, if_false]
    refine ih (i + 1) (fun m hm => ?_)
    have hh := h (m + 1) (by omega)
    have heq : i + (m + 1) = i + 1 + m := by omega
    rwa [heq] at hh

/-- When the first terminal status within the remaining attempts sits at
offset `j`, the polling loop returns that response. -/
theorem pollFrom_reaches (resp : Nat → BackendUploadStatusResponse) :
    ∀ fuel i j, j < fuel → terminalStatus (resp (i + j)) = true →
      (∀ m, m < j → terminalStatus (resp (i + m)) = false) →
      pollFrom resp fuel i = .ok (resp (i + j)) := by
  intro fuel
  induction fuel with
  | zero => intro i j hj _ _; exact absurd hj (by omega)
  | succ n ih =>
    intro i j hj ht hpre
    cases j with
    | zero =>
      have ht0 : terminalStatus (resp i) = true := by simpa using ht
      rw [pollFrom, ht0]
      simp
    | succ k =>
      have h0 : terminalStatus (resp i) = false := by simpa using hpre 0 (by omega)
      rw [pollFrom, h0]
      simp only [Bool.false_eq_true, if_false]
      have heq : i + (k + 1) = i + 1 + k := by omega
      rw [heq] at ht ⊢
      refine ih (i + 1) k (by omega) ht (fun m hm => ?_)
      have hh := hpre (m + 1) (by omega)
      have heq2 : i + (m + 1) = i + 1 + m := by omega
      rwa [heq2] at hh

/-- Conversely, a successful poll result is the first terminal response
within the remaining attempts. -/
theorem pollFrom_ok_inv (resp : Nat → BackendUploadStatusResponse) :
    ∀ fuel i r, pollFrom resp fuel i = .ok r →
      ∃ j, j < fuel ∧ r = resp (i + j) ∧ terminalStatus (resp (i + j)) = true ∧
        ∀ m, m < j → terminalStatus (resp (i + m)) = false := by
  intro fuel
  induction fuel with
  | zero => intro i r h; exact absurd h (by rw [pollFrom]; simp)
  | succ n ih =>
    intro i r h
    by_cases h0 : terminalStatus (resp i) = true
    · rw [pollFrom, h0] at h
      simp only [if_true, Except.ok.injEq] at h
      exact ⟨0, by omega, by simpa using h.symm, by simpa using h0,
        fun m hm => absurd hm (by omega)⟩
    · have h0f : terminalStatus (resp i) = false := by
        revert h0; cases terminalStatus (resp i) <;> simp
      rw [pollFrom, h0f] at h
      simp only [Bool.false_eq_true, if_false] at h
      obtain ⟨j, hj, hr, ht, hpre⟩ := ih (i + 1) r h
      have heq : i + (j + 1) = i + 1 + j := by omega
      refine ⟨j + 1, by omega, by rw [heq]; exact hr, by rw [heq]; exact ht, fun m hm => ?_⟩
      cases m with
      | zero => simpa using h0f
      | succ k =>
        have heq2 : i + (k + 1) = i + 1 + k := by omega
        rw [heq2]
        exact hpre k (by omega)

/-- C4: for every sequence of status responses, `uploadDocument` (after a
successful initial upload) returns a success result exactly when the
first terminal status within 60 polling attempts is `completed`; when the
first terminal status is `failed` it throws an error carrying the
reported error message (`'Upload failed'` when the reported message is
absent or empty, per JS `||`); and when no terminal status arrives within
60 attempts it throws the upload-timeout error. -/
theorem c4_upload_document_poll (upload : BackendUploadResponse)
    (resp : Nat → BackendUploadStatusResponse) :
    ((∃ res, uploadDocument upload resp = .ok res) ↔
        ∃ j, j < 60 ∧ (resp j).status = "completed" ∧
          ∀ i, i < j → terminalStatus (resp i) = false) ∧
      (∀ j, j < 60 → (resp j).status = "failed" →
        (∀ i, i < j → terminalStatus (resp i) = false) →
        uploadDocument upload resp = .error (jsOrString (resp j).error "Upload failed")) ∧
      ((∀ i, i < 60 → terminalStatus (resp i) = false) →
        uploadDocument upload resp = .error "Upload timeout") := by
  refine ⟨⟨?_, ?_⟩, ?_, ?_⟩
  · rintro ⟨res, hres⟩
    unfold uploadDocument pollUploadStatus at hres
    cases hp : pollFrom resp 60 0 with
    | error e => rw [hp] at hres; simp at hres
    | ok s =>
      rw [hp] at hres
      by_cases hf : s.status = "failed"
      · simp only [hf, if_true, reduceIte] at hres
        simp at hres
      · obtain ⟨j, hj, hr, ht, hpre⟩ := pollFrom_ok_inv resp 60 0 s hp
        refine ⟨j, hj, ?_, fun i hi => by simpa using hpre i hi⟩
        have hterm : (resp (0 + j)).status = "completed" ∨ (resp (0 + j)).status = "failed" := by
          simpa [terminalStatus, Bool.or_eq_true, beq_iff_eq] using ht
        rcases hterm with hc | hfl
        · simpa using hc
        · exact absurd (hr ▸ hfl) hf
  · rintro ⟨j, hj, hc, hpre⟩
    have ht : terminalStatus (resp (0 + j)) = true := by
      simp [terminalStatus, Nat.zero_add, hc]
    have hp := pollFrom_reaches resp 60 0 j hj ht (fun m hm => by simpa using hpre m hm)
    unfold uploadDocument pollUploadStatus
    rw [hp]
    have hf : ¬ (resp j).status = "failed" := by rw [hc]; decide
    simp [hf]
  · intro j hj hfl hpre
    have ht : terminalStatus (resp (0 + j)) = true := by
      simp [terminalStatus, Nat.zero_add, hfl]
    have hp := pollFrom_reaches resp 60 0 j hj ht (fun m hm => by simpa using hpre m hm)
    unfold uploadDocument pollUploadStatus
    rw [hp]
    simp [Nat.zero_add, hfl]
  · intro h
    have hp := pollFrom_timeout resp 60 0 (fun m hm => by simpa using h m hm)
    unfold uploadDocument pollUploadStatus
    rw [hp]

/-- Witness for C4: on a stream that reports `failed` with message
`"boom"` at the first attempt, `uploadDocument` throws that message. -/
theorem c4_upload_document_poll_witness :
    uploadDocument sampleUpload failingStream = .error "boom" :=
  (c4_upload_document_poll sampleUpload failingStream).2.1 0 (by omega) rfl
    (fun i hi => absurd hi (by omega))

/-- C5: `sendQuery` posts `{question}` to `/api/v1/query`, and for every
backend response it returns the response's answer unchanged and a sources
list equal to the `content` field of each returned source in the same
order, `none` when the backend omits `sources`. -/
theorem c5_send_query_mapping (q : String) (resp : BackendQueryResponse) :
    sendQueryRequest q = ("/api/v1/query", ⟨q⟩) ∧
      (sendQuery resp).answer = resp.answer ∧
      (resp.sources = none → (sendQuery resp).sources = none) ∧
      ∀ srcs, resp.sources = some srcs →
        (sendQuery resp).sources = some (srcs.map BackendQuerySource.content) := by
  refine ⟨rfl, rfl, fun h => ?_, fun srcs h => ?_⟩ <;> simp [sendQuery, h]

/-- Witness for C5 at a concrete response carrying one source. -/
theorem c5_send_query_mapping_witness :
    (sendQuery sampleBackendQueryResponse).sources = some ["x"] :=
  (c5_send_query_mapping "q" sampleBackendQueryResponse).2.2.2 [⟨"x", none, none⟩] rfl

/-- C8: `checkHealth` is a total Boolean-valued function of the request
outcome (any error is absorbed), and it returns `true` if and only if the
request succeeded and the payload's `status` field equals `"ok"`. -/
theorem c8_check_health_iff (ε : Type) (outcome : Except ε HealthPayload) :
    checkHealth outcome = true ↔
      ∃ payload, outcome = Except.ok payload ∧ payload.status = some "ok" := by
  cases outcome with
  | error e => simp [checkHealth]
  | ok payload => simp [checkHealth]

/-- The characters a `toFixed` rendering can contain. -/
def numericChars : List Char :=
  ['-', '.', '0', '1', '2', '3', '4', '5', '6', '7', '8', '9']

/-- `digitChar` produces a numeric character. -/
theorem digitChar_mem (d : Nat) : digitChar d ∈ numericChars := by
  unfold digitChar
  split_ifs <;> decide

/-- `natCharsAux` produces only numeric characters. -/
theorem natCharsAux_mem :
    ∀ fuel n c, c ∈ natCharsAux fuel n → c ∈ numericChars := by
  intro fuel
  induction fuel with
  | zero => intro n c h; simp [natCharsAux] at h
  | succ k ih =>
    intro n c h
    rw [natCharsAux] at h
    by_cases hn : n = 0
    · rw [if_pos hn] at h; simp at h
    · rw [if_neg hn] at h
      rcases List.mem_append.mp h with h | h
      · exact ih _ _ h
      · rw [List.mem_singleton] at h
        subst h
        exact digitChar_mem _

/-- `natChars` produces only numeric characters. -/
theorem natChars_mem (n : Nat) (c : Char) (h : c ∈ natChars n) : c ∈ numericChars := by
  unfold natChars at h
  split_ifs at h with hn
  · rw [List.mem_singleton] at h; subst h; decide
  · exact natCharsAux_mem _ _ _ h

/-- `padZeros` preserves the numeric character set. -/
theorem padZeros_mem (w : Nat) (l : List Char) (c : Char)
    (hl : ∀ x ∈ l, x ∈ numericChars) (h : c ∈ padZeros w l) : c ∈ numericChars := by
  rcases List.mem_append.mp h with h | h
  · rw [List.eq_of_mem_replicate h]; decide
  · exact hl _ h

/-- `fixedCore` produces only numeric characters. -/
theorem fixedCore_mem (m digits : Nat) (c : Char) (h : c ∈ fixedCore m digits) :
    c ∈ numericChars := by
  unfold fixedCore at h
  split_ifs at h with hd
  · exact natChars_mem _ _ h
  · rcases List.mem_append.mp h with h | h
    · exact natChars_mem _ _ h
    · rcases List.mem_cons.mp h with h | h
      · subst h; decide
      · exact padZeros_mem _ _ _ (fun x hx => natChars_mem _ _ hx) h

/-- `toFixedChars` produces only numeric characters. -/
theorem toFixedChars_mem (v : ℚ) (digits : Nat) (c : Char)
    (h : c ∈ toFixedChars v digits) : c ∈ numericChars := by
  unfold toFixedChars at h
  split_ifs at h
  · rcases List.mem_cons.mp h with h | h
    · subst h; decide
    · exact fixedCore_mem _ _ _ h
  · exact fixedCore_mem _ _ _ h

/-- C10: `MetricsCard` renders `'N/A'` exactly when the metric value is
null, and with a numeric target and non-null value the success (green)
status shows if and only if `value ≤ target` for the ms (latency) format
and `value ≥ target` for the percent and number formats. -/
theorem c10_metrics_card (val : Option ℚ) (fmt : MetricFormat) (v t : ℚ)
    (fmt2 : MetricFormat) :
    (formatValue val fmt = "N/A" ↔ val = none) ∧
      (getStatusColor (some v) (some t) fmt2 = .green ↔
        (if fmt2 = .ms then v ≤ t else t ≤ v)) := by
  constructor
  · constructor
    · intro h
      cases val with
      | none => rfl
      | some x =>
        exfalso
        cases fmt with
        | percent =>
          simp only [formatValue] at h
          have hdata : (String.mk (toFixedChars (x * 100) 1 ++ ['%'])).data = "N/A".data :=
            congrArg String.data h
          rw [show (String.mk (toFixedChars (x * 100) 1 ++ ['%'])).data
              = toFixedChars (x * 100) 1 ++ ['%'] from rfl] at hdata
          have hN : 'N' ∈ toFixedChars (x * 100) 1 ++ ['%'] := by rw [hdata]; decide
          rcases List.mem_append.mp hN with hN | hN
          · exact absurd (toFixedChars_mem _ _ _ hN) (by decide)
          · simp at hN
        | ms =>
          simp only [formatValue] at h
          have hdata : (String.mk (toFixedChars x 0 ++ ['m', 's'])).data = "N/A".data :=
            congrArg String.data h
          rw [show (String.mk (toFixedChars x 0 ++ ['m', 's'])).data
              = toFixedChars x 0 ++ ['m', 's'] from rfl] at hdata
          have hN : 'N' ∈ toFixedChars x 0 ++ ['m', 's'] := by rw [hdata]; decide
          rcases List.mem_append.mp hN with hN | hN
          · exact absurd (toFixedChars_mem _ _ _ hN) (by decide)
          · simp at hN
        | number =>
          simp only [formatValue] at h
          have hdata : (String.mk (toFixedChars x 2)).data = "N/A".data :=
            congrArg String.data h
          rw [show (String.mk (toFixedChars x 2)).data = toFixedChars x 2 from rfl] at hdata
          have hN : 'N' ∈ toFixedChars x 2 := by rw [hdata]; decide
          exact absurd (toFixedChars_mem _ _ _ hN) (by decide)
    · intro h; subst h; rfl
  · cases fmt2 with
    | percent =>
      simp only [getStatusColor]
      split_ifs with hc <;> simp_all
    | number =>
      simp only [getStatusColor]
      split_ifs with hc <;> simp_all
    | ms =>
      simp only [getStatusColor]
      split_ifs with hc <;> simp_all

/-- C6: in RRF fusion over two ranked lists, a doc_id present in exactly
one list gets fused score `1 / (rrf_constant + its rank in that list)`,
and a doc_id absent from both lists never appears in the fused output. -/
theorem c6_rrf_fusion (rrf_constant : ℚ) (k : Nat) (l1 l2 : List String) (d : String) :
    (d ∈ l1 → d ∉ l2 →
        fusedScore rrf_constant [l1, l2] d = 1 / (rrf_constant + (rankIn l1 d : ℚ))) ∧
      (d ∉ l1 → d ∈ l2 →
        fusedScore rrf_constant [l1, l2] d = 1 / (rrf_constant + (rankIn l2 d : ℚ))) ∧
      (d ∉ l1 → d ∉ l2 → ∀ p ∈ rrfFuse rrf_constant k [l1, l2], p.1 ≠ d) := by
  refine ⟨fun h1 h2 => ?_, fun h1 h2 => ?_, fun h1 h2 p hp => ?_⟩
  · simp [fusedScore, rrfContribution, h1, h2]
  · simp [fusedScore, rrfContribution, h1, h2]
  · simp only [rrfFuse, List.mem_map] at hp
    obtain ⟨x, hx, hpx⟩ := hp
    intro hpd
    have hxd : x = d := by rw [← hpx] at hpd; exact hpd
    subst hxd
    have hx2 : x ∈ ([l1, l2].flatten).dedup.mergeSort (rrfBefore rrf_constant [l1, l2]) :=
      List.mem_of_mem_take hx
    have hx3 : x ∈ ([l1, l2].flatten).dedup :=
      ((List.mergeSort_perm _ _).mem_iff).mp hx2
    have hx4 : x ∈ [l1, l2].flatten := List.mem_dedup.mp hx3
    simp at hx4
    rcases hx4 with h | h
    exacts [h1 h, h2 h]

/-- Witness for C6 with `rrf_constant = 60`, lists `["a","b"]` and
`["b"]`, and the doc_id `"a"` present only in the first list at rank 1. -/
theorem c6_rrf_fusion_witness :
    fusedScore 60 [["a", "b"], ["b"]] "a" = 1 / (60 + (rankIn ["a", "b"] "a" : ℚ)) :=
  (c6_rrf_fusion 60 5 ["a", "b"] ["b"] "a").1 (by decide) (by decide)

/-- C7: for a fixed retrieved ranked list and a fixed non-empty
relevant-document set, `recall_at_k` is monotonically non-decreasing in
`k`. -/
theorem c7_recall_monotone (retrieved : List String) (relevant : Finset String)
    (k1 k2 : Nat) (hne : relevant.Nonempty) (hk : k1 ≤ k2) :
    recallAtK retrieved relevant k1 ≤ recallAtK retrieved relevant k2 := by
  unfold recallAtK
  have hcard : (0 : ℚ) < (relevant.card : ℚ) := by
    exact_mod_cast Finset.card_pos.mpr hne
  have hts : (retrieved.take k1).toFinset ⊆ (retrieved.take k2).toFinset := by
    intro a ha
    rw [List.mem_toFinset] at ha ⊢
    have htk : retrieved.take k1 = (retrieved.take k2).take k1 := by
      rw [List.take_take, min_eq_left hk]
    rw [htk] at ha
    exact List.mem_of_mem_take ha
  have hnum : ((((retrieved.take k1).toFinset ∩ relevant).card : ℚ)) ≤
      (((retrieved.take k2).toFinset ∩ relevant).card : ℚ) := by
    exact_mod_cast
      Finset.card_le_card (Finset.inter_subset_inter hts (Finset.Subset.refl relevant))
  rw [div_le_div_iff₀ hcard hcard]
  exact mul_le_mul_of_nonneg_right hnum hcard.le

/-- Witness for C7 at the retrieved list `["d1","d2"]`, relevant set
`{"d1"}`, and `k1 = 1 ≤ k2 = 2`. -/
theorem c7_recall_monotone_witness :
    recallAtK ["d1", "d2"] {"d1"} 1 ≤ recallAtK ["d1", "d2"] {"d1"} 2 :=
  c7_recall_monotone ["d1", "d2"] {"d1"} 1 2 ⟨"d1", by decide⟩ (by decide)

end RagSpec
